/-
Verification of the must-gather code-execution MCP server.

This file shallowly embeds the two pure components the specification
describes — the analysis-method search (searchAlgorithm.ts together with
the method registry methodIndex.ts) and the type-definition expander
(src/codegen/typeGenerator.ts) with its MCP tool handler (mcp-server.ts) —
and proves or refutes the frozen claims about them.

Modelling conventions:
  * JavaScript strings are Lean `String`; `string.includes` is substring
    containment on the character lists; `localeCompare` is modelled as
    code-point lexicographic comparison (the registry names are plain
    ASCII, where the two orders agree).
  * JavaScript numbers that the code only ever uses integrally are `Int`.
  * `x || d` on a number is `jsOrInt`: `0` (the only falsy integer) and a
    missing value both yield the default.
  * `arr.slice(0, e)` is `jsSliceTo`: a negative `e` counts from the end
    of the array, exactly as in JavaScript.
  * A `Set<string>` used only for membership and insertion is a
    `List String`.
-/
import Mathlib

namespace MustGather

/-! ## JavaScript-semantics helpers -/

/-- JavaScript `haystack.includes(needle)`: substring containment. -/
def strIncludes (haystack needle : String) : Bool :=
  decide (needle.toList <:+: haystack.toList)

/-- JavaScript `x || d` for an optional number: `undefined` and `0`
(the falsy integer) give the default, every other value passes through. -/
def jsOrInt (o : Option Int) (d : Int) : Int :=
  match o with
  | none => d
  | some x => if x = 0 then d else x

/-- JavaScript `x || d` for an optional boolean. -/
def jsOrBool (o : Option Bool) (d : Bool) : Bool :=
  match o with
  | none => d
  | some b => b || d

/-- JavaScript truthiness of an optional string: present and non-empty. -/
def strTruthy (o : Option String) : Bool :=
  match o with
  | none => false
  | some s => !(s == "")

/-- JavaScript `arr.slice(0, e)`: with `e ≥ 0` take the first `e`
elements, with `e < 0` take all but the last `-e` elements. -/
def jsSliceTo (e : Int) (l : List α) : List α :=
  l.take (if e < 0 then ((l.length : Int) + e).toNat else e.toNat)

/-- The fields of JavaScript `s.split(/\s+/)` over the character list:
every maximal whitespace run is one separator, so a whitespace
character either extends the separator run continuing to its right or
closes a field; a leading run yields a leading empty field and a
trailing run a trailing one, exactly as the regex split does. -/
def jsSplitWsChars : List Char → List String
  | [] => [""]
  | c :: rest =>
    if c.isWhitespace then
      match rest, jsSplitWsChars rest with
      | r :: _, fields =>
        if r.isWhitespace then fields else "" :: fields
      | [], _ => ["", ""]
    else
      match jsSplitWsChars rest with
      | f :: fields => (String.mk [c] ++ f) :: fields
      | [] => [String.mk [c]]

/-- JavaScript `s.split(/\s+/)`. -/
def jsSplitWs (s : String) : List String :=
  jsSplitWsChars s.toList

/-- JavaScript `s.toLowerCase()` (character-wise lower-casing; the
registry content is plain ASCII, where this agrees with the JavaScript
locale-independent mapping). -/
def strToLower (s : String) : String :=
  String.mk (s.toList.map Char.toLower)

/-- JavaScript `s.replace(/([A-Z])/g, ' $1')`: insert a space before
every uppercase letter. -/
def spaceBeforeUpper (s : String) : String :=
  String.mk (s.toList.foldr (fun c acc =>
    (if c.isUpper then [' ', c] else [c]) ++ acc) [])

/-- Stable insertion of `a` into an already ranked list: `a` goes after
every element that may precede it (including ties). -/
def insertRanked (le : α → α → Bool) (a : α) : List α → List α
  | [] => [a]
  | b :: bs => if le b a then b :: insertRanked le a bs else a :: b :: bs

/-- Left-to-right stable insertion sort, the model of JavaScript
`Array.prototype.sort` (which is stable): with a consistent comparator
every stable sort produces the same list. -/
def jsStableSortGo (le : α → α → Bool) (acc : List α) :
    List α → List α
  | [] => acc
  | a :: as => jsStableSortGo le (insertRanked le a acc) as

/-- JavaScript `arr.sort(comparator)` for a consistent comparator,
expressed as a `Bool`-valued precedence `le a b` = "comparator(a,b) ≤ 0". -/
def jsStableSort (le : α → α → Bool) (l : List α) : List α :=
  jsStableSortGo le [] l

/-! ## Search data model (methodIndex.ts) -/

/-- The `severity` union type of an analysis method. -/
inductive Severity where
  | critical
  | warning
  | info
deriving DecidableEq

/-- The `scope` union type of an analysis method. -/
inductive Scope where
  | cluster
  | namespace
  | pod
  | node
  | container
deriving DecidableEq

/-- The `category` union type of an analysis method. -/
inductive Category where
  | health
  | performance
  | configuration
  | logs
deriving DecidableEq

/-- An entry of the analysis-method registry (interface `AnalysisMethod`).
The fields `signature`, `parameters`, `returns` and `example` of the
source interface are pure documentation payload: neither the search
algorithm nor any claim reads them, so they are omitted from the
embedding. -/
structure AnalysisMethod where
  name : String
  description : String
  component : Option String
  severity : Severity
  scope : Scope
  category : Category
  keywords : List String
deriving DecidableEq

/-- Search parameters (interface `SearchParams`). Optional fields are
`Option`; the string-valued ones may be present but empty, which the
code treats as absent (JavaScript truthiness). -/
structure SearchParams where
  component : Option String := none
  severity : Option Severity := none
  scope : Option Scope := none
  category : Option Category := none
  keyword : Option String := none
  limit : Option Int := none
deriving DecidableEq

/-- A registry entry paired with its search score (interface
`ScoredMethod`). -/
structure ScoredMethod where
  method : AnalysisMethod
  score : Int
deriving DecidableEq

/-! ## The registry (`ANALYSIS_METHODS` of methodIndex.ts) -/

/-- The eleven-entry analysis-method registry. -/
def ANALYSIS_METHODS : List AnalysisMethod := [
  { name := "listNamespaces",
    description := "List all namespaces in the cluster",
    component := some "namespaces",
    severity := .info, scope := .cluster, category := .configuration,
    keywords := ["namespace", "project", "list", "inventory"] },
  { name := "getNodes",
    description := "Get all nodes with status, roles, and conditions",
    component := some "nodes",
    severity := .info, scope := .cluster, category := .health,
    keywords := ["node", "infrastructure", "compute", "ready", "status",
      "worker", "master"] },
  { name := "getPods",
    description := "Get pods from a specific namespace or all namespaces",
    component := some "pods",
    severity := .info, scope := .namespace, category := .health,
    keywords := ["pod", "container", "namespace", "workload",
      "application"] },
  { name := "getFailingPods",
    description :=
      "Get pods that are failing, crashed, or have restarting containers",
    component := some "pods",
    severity := .warning, scope := .cluster, category := .health,
    keywords := ["pod", "failing", "crashed", "error", "restart",
      "crashloop", "failed"] },
  { name := "getPodLogs",
    description := "Get logs for a specific pod and optional container",
    component := some "pods",
    severity := .info, scope := .pod, category := .logs,
    keywords := ["logs", "pod", "container", "error", "debug", "output",
      "stdout", "stderr"] },
  { name := "getEvents",
    description := "Get cluster events from a namespace or all namespaces",
    component := some "events",
    severity := .info, scope := .namespace, category := .health,
    keywords := ["event", "warning", "error", "history", "timeline",
      "audit"] },
  { name := "getWarningEvents",
    description :=
      "Get only warning and error events from across the cluster",
    component := some "events",
    severity := .warning, scope := .cluster, category := .health,
    keywords := ["event", "warning", "error", "critical", "issue",
      "problem", "alert"] },
  { name := "getEtcdHealth",
    description := "Get etcd cluster health status for all members",
    component := some "etcd",
    severity := .critical, scope := .cluster, category := .health,
    keywords := ["etcd", "health", "database", "quorum", "critical",
      "control-plane"] },
  { name := "getEtcdStatus",
    description := "Get detailed etcd endpoint status and metadata",
    component := some "etcd",
    severity := .info, scope := .cluster, category := .health,
    keywords := ["etcd", "status", "version", "endpoint", "metadata",
      "cluster-id"] },
  { name := "getClusterOperators",
    description :=
      "Get all cluster operators with availability and degradation status",
    component := some "operators",
    severity := .info, scope := .cluster, category := .health,
    keywords := ["operator", "cluster", "health", "availability",
      "component", "openshift"] },
  { name := "getDegradedOperators",
    description := "Get only degraded or unavailable cluster operators",
    component := some "operators",
    severity := .critical, scope := .cluster, category := .health,
    keywords := ["operator", "degraded", "unavailable", "failing",
      "critical", "broken"] }
]

/-! ## Search algorithm (searchAlgorithm.ts) -/

/-- `calculateKeywordScore(method, keyword)`: the keyword relevance
score, as accumulated step by step in the source. -/
def calculateKeywordScore (method : AnalysisMethod) (keyword : String) :
    Int :=
  let kw := strToLower keyword
  let score : Int := 0
  -- Exact match in method name (highest score)
  let score :=
    if strToLower method.name = kw then score + 100
    else if strIncludes (strToLower method.name) kw then score + 80
    else score
  -- Match in keywords array
  let keywordMatches := method.keywords.filter (fun k =>
    let kwLower := strToLower k
    kwLower = kw || strIncludes kwLower kw || strIncludes kw kwLower)
  let score := score + keywordMatches.length * 20
  -- Match in description
  let score :=
    if strIncludes (strToLower method.description) kw then score + 10
    else score
  -- Match in component
  let score :=
    match method.component with
    | some c => if strIncludes (strToLower c) kw then score + 15 else score
    | none => score
  -- Partial word matches in method name
  let methodNameWords :=
    jsSplitWs (strToLower (spaceBeforeUpper method.name))
  let score :=
    if methodNameWords.any (fun w =>
        strIncludes w kw || strIncludes kw w) then score + 5
    else score
  score

/-- The `// Exact component match (filter)` block of the filter
callback: one update of the `(include, score)` state. -/
def componentStep (params : SearchParams) (m : AnalysisMethod)
    (st : Bool × Int) : Bool × Int :=
  if strTruthy params.component then
    if (m.component.map strToLower) =
        some (strToLower (params.component.getD "")) then
      (st.1, st.2 + 50)
    else (false, st.2)
  else st

/-- The `// Exact severity match (filter)` block. -/
def severityStep (params : SearchParams) (m : AnalysisMethod)
    (st : Bool × Int) : Bool × Int :=
  match params.severity with
  | some sv => if m.severity = sv then (st.1, st.2 + 30) else (false, st.2)
  | none => st

/-- The `// Exact scope match (filter)` block. -/
def scopeStep (params : SearchParams) (m : AnalysisMethod)
    (st : Bool × Int) : Bool × Int :=
  match params.scope with
  | some sc => if m.scope = sc then (st.1, st.2 + 30) else (false, st.2)
  | none => st

/-- The `// Exact category match (filter)` block. -/
def categoryStep (params : SearchParams) (m : AnalysisMethod)
    (st : Bool × Int) : Bool × Int :=
  match params.category with
  | some cat => if m.category = cat then (st.1, st.2 + 30) else (false, st.2)
  | none => st

/-- The `// Keyword scoring (filter + score)` block. -/
def keywordStep (params : SearchParams) (m : AnalysisMethod)
    (st : Bool × Int) : Bool × Int :=
  if strTruthy params.keyword then
    let keywordScore := calculateKeywordScore m (params.keyword.getD "")
    if keywordScore = 0 then (false, st.2)
    else (st.1, st.2 + keywordScore)
  else st

/-- The body of the `filter` callback of `searchAnalysisMethods`:
starting from `include = true, score = 0`, the five blocks run in
source order, each able to add its boost or clear the `include` flag;
the final `(include, score)` state is returned.  (As in the source, a
block that clears the flag does not short-circuit the later blocks.) -/
def searchFilterStep (params : SearchParams) (m : AnalysisMethod) :
    Bool × Int :=
  keywordStep params m (categoryStep params m (scopeStep params m
    (severityStep params m (componentStep params m (true, 0)))))

/-- The scored matches that survive the filter, in registry order. -/
def searchMatches (registry : List AnalysisMethod)
    (params : SearchParams) : List ScoredMethod :=
  registry.filterMap (fun m =>
    let st := searchFilterStep params m
    if st.1 then some ⟨m, st.2⟩ else none)

/-- Lexicographic code-point comparison of character lists:
`charListLe as bs` holds when `as` is not strictly after `bs`. -/
def charListLe : List Char → List Char → Bool
  | [], _ => true
  | _ :: _, [] => false
  | a :: as, b :: bs =>
    if a.toNat < b.toNat then true
    else if b.toNat < a.toNat then false
    else charListLe as bs

/-- `a.localeCompare(b) <= 0`, modelled as ordinal (code-point)
comparison — the registry names are plain ASCII, where the two
agree. -/
def strLeBool (a b : String) : Bool :=
  charListLe a.toList b.toList

/-- The sort comparator as a `Bool`-valued precedence: higher score
first, ties broken alphabetically by name. -/
def searchLe (a b : ScoredMethod) : Bool :=
  if a.score = b.score then strLeBool a.method.name b.method.name
  else decide (b.score < a.score)

/-- The filtered matches, ranked: stable sort by descending score and
then name, mirroring `matches.sort(...)`. -/
def searchRanked (registry : List AnalysisMethod)
    (params : SearchParams) : List ScoredMethod :=
  jsStableSort searchLe (searchMatches registry params)

/-- `searchAnalysisMethods(params)`: filter, score, rank, then apply the
limit rule `matches.slice(0, Math.min(params.limit || 10, 50))`.  The
registry is the hard-wired `ANALYSIS_METHODS` in the source; it is a
parameter here so that claims quantified over registries can be
stated. -/
def searchAnalysisMethods (registry : List AnalysisMethod)
    (params : SearchParams) : List AnalysisMethod :=
  let limit := jsOrInt params.limit 10
  let maxLimit := min limit 50
  (jsSliceTo maxLimit (searchRanked registry params)).map (·.method)

/-! ## Type-definition generator (src/codegen/typeGenerator.ts) -/

/-- A generated type definition (interface `TypeDefinition`).  The
`examples` payload of the source is an arbitrary JavaScript value whose
content no claim inspects; only its presence matters, so it is modelled
as `Option Unit`. -/
structure TypeDefinition where
  name : String
  definition : String
  source : Option String := none
  examples : Option Unit := none
deriving DecidableEq

/-- The type map the expander walks: the per-type definition lookup
(`getTypeDefinition`) and the reference relation (`getNestedTypes`).
The source hard-wires both to the must-gather switch below
(`mustGatherTypeMap`); the expander is parameterised over them here so
that claims quantified over type maps can be stated. -/
structure TypeMap where
  defs : String → Bool → Option TypeDefinition
  nested : String → List String

/-- The base type of a possibly dotted type path:
`const [baseType, ...path] = typeName.split('.')` — the portion before
the first dot (the whole name when there is none; the suffix `path` is
never used by the source). -/
def baseTypeName (typeName : String) : String :=
  String.mk (typeName.toList.takeWhile (fun c => c ≠ '.'))

mutual

/-- `addTypeDefinition(typeName, types, processedTypes, maxDepth,
includeExamples, currentDepth)`: resolve the base type before the first
dot (`const [baseType, ...path] = typeName.split('.')`; the suffix
`path` is unused) and process it.  `types` and `processedTypes` are the
threaded accumulator state returned as a pair. -/
def addTypeDefinition (tm : TypeMap) (typeName : String)
    (types : List TypeDefinition) (processedTypes : List String)
    (maxDepth : Int) (includeExamples : Bool) (currentDepth : Nat) :
    List TypeDefinition × List String :=
  addTypeFromBase tm (baseTypeName typeName) types
    processedTypes maxDepth includeExamples currentDepth
termination_by ((maxDepth - currentDepth).toNat, 0, 1)

/-- The body of `addTypeDefinition` after the base type has been
extracted: skip already-processed names, mark the name processed, push
its definition if the map has one, and while `currentDepth < maxDepth`
recurse into the referenced types at `currentDepth + 1`. -/
def addTypeFromBase (tm : TypeMap) (baseType : String)
    (types : List TypeDefinition) (processedTypes : List String)
    (maxDepth : Int) (includeExamples : Bool) (currentDepth : Nat) :
    List TypeDefinition × List String :=
  if baseType ∈ processedTypes then (types, processedTypes)
  else
    let processedTypes := processedTypes ++ [baseType]
    match tm.defs baseType includeExamples with
    | none => (types, processedTypes)
    | some typeDef =>
      let types := types ++ [typeDef]
      if (currentDepth : Int) < maxDepth then
        addNestedTypes tm (tm.nested baseType) types processedTypes
          maxDepth includeExamples (currentDepth + 1)
      else
        (types, processedTypes)
termination_by ((maxDepth - currentDepth).toNat, 0, 0)
decreasing_by
  apply Prod.Lex.left
  omega

/-- The `for (const nestedType of nestedTypes)` loop of
`addTypeDefinition`: skip names already processed, otherwise recurse. -/
def addNestedTypes (tm : TypeMap) (nestedTypes : List String)
    (types : List TypeDefinition) (processedTypes : List String)
    (maxDepth : Int) (includeExamples : Bool) (currentDepth : Nat) :
    List TypeDefinition × List String :=
  match nestedTypes with
  | [] => (types, processedTypes)
  | nestedType :: rest =>
    if nestedType ∈ processedTypes then
      addNestedTypes tm rest types processedTypes maxDepth
        includeExamples currentDepth
    else
      let st := addTypeDefinition tm nestedType types processedTypes
        maxDepth includeExamples currentDepth
      addNestedTypes tm rest st.1 st.2 maxDepth includeExamples
        currentDepth
termination_by ((maxDepth - currentDepth).toNat, nestedTypes.length + 1, 0)

end

/-- `getTypeDefinitions(typeNames, depth, includeExamples)` over an
arbitrary type map: fresh accumulator and processed set, one
`addTypeDefinition` call per requested name at depth 0. -/
def getTypeDefinitionsOver (tm : TypeMap) (typeNames : List String)
    (depth : Int) (includeExamples : Bool) : List TypeDefinition :=
  (typeNames.foldl (fun acc typeName =>
      addTypeDefinition tm typeName acc.1 acc.2 depth includeExamples 0)
    ([], [])).1

/-- `getTypeDefinition(typeName, includeExamples)`: the hard-wired
switch over the known must-gather types.  The `definition` strings are
the source text of the generated interfaces (braces written as escape
codes); the example payloads are opaque (`Option Unit`), present
exactly when the source attaches one, i.e. when `includeExamples` is
set and the case has an `examples` property. -/
def getTypeDefinition (typeName : String) (includeExamples : Bool) :
    Option TypeDefinition :=
  match typeName with
  | "Node" => some
    { name := "Node",
      definition := String.intercalate "\n" [
        "interface Node \x7b",
        "  name: string;                // Node name (e.g., \"master-0\", \"worker-1\")",
        "  status: string;              // \"Ready\" | \"NotReady\"",
        "  roles: string[];             // Node roles (e.g., [\"master\"], [\"worker\"])",
        "  version: string;             // Kubelet version",
        "  conditions: Condition[];     // Node conditions",
        "\x7d"],
      source := some "must-gather-lib.ts:17",
      examples := if includeExamples then some () else none }
  | "Pod" => some
    { name := "Pod",
      definition := String.intercalate "\n" [
        "interface Pod \x7b",
        "  name: string;                // Pod name",
        "  namespace: string;           // Namespace containing the pod",
        "  status: string;              // Pod phase",
        "  phase: string;               // \"Running\" | \"Pending\" | \"Failed\" | \"Succeeded\" | \"Unknown\"",
        "  containers: Container[];     // Container details",
        "  conditions: Condition[];     // Pod conditions",
        "\x7d"],
      source := some "must-gather-lib.ts:25",
      examples := if includeExamples then some () else none }
  | "Container" => some
    { name := "Container",
      definition := String.intercalate "\n" [
        "interface Container \x7b",
        "  name: string;                // Container name",
        "  image: string;               // Container image",
        "  state: string;               // \"Running\" | \"Waiting: <reason>\" | \"Terminated: <reason>\"",
        "  ready: boolean;              // Whether container is ready",
        "  restartCount: number;        // Number of container restarts",
        "\x7d"],
      source := some "must-gather-lib.ts:34",
      examples := if includeExamples then some () else none }
  | "Event" => some
    { name := "Event",
      definition := String.intercalate "\n" [
        "interface Event \x7b",
        "  namespace: string;           // Namespace where event occurred",
        "  type: string;                // \"Normal\" | \"Warning\" | \"Error\"",
        "  reason: string;              // Event reason (e.g., \"FailedScheduling\", \"Unhealthy\")",
        "  message: string;             // Human-readable event message",
        "  involvedObject: \x7b",
        "    kind: string;              // Resource kind (e.g., \"Pod\", \"Node\", \"Deployment\")",
        "    name: string;              // Resource name",
        "  \x7d;",
        "  timestamp: string;           // ISO 8601 timestamp",
        "  lastTimestamp?: string;      // Last occurrence timestamp",
        "  firstTimestamp?: string;     // First occurrence timestamp",
        "\x7d"],
      source := some "must-gather-lib.ts:42",
      examples := if includeExamples then some () else none }
  | "EtcdHealth" => some
    { name := "EtcdHealth",
      definition := String.intercalate "\n" [
        "interface EtcdHealth \x7b",
        "  endpoint: string;            // Etcd member endpoint URL",
        "  health: boolean;             // true if healthy, false if unhealthy",
        "  took: string;                // Time taken for health check",
        "  error?: string;              // Error message if unhealthy",
        "\x7d"],
      source := some "must-gather-lib.ts:56",
      examples := if includeExamples then some () else none }
  | "ClusterOperator" => some
    { name := "ClusterOperator",
      definition := String.intercalate "\n" [
        "interface ClusterOperator \x7b",
        "  name: string;                // Operator name (e.g., \"authentication\", \"kube-apiserver\")",
        "  available: string;           // \"True\" | \"False\" | \"Unknown\"",
        "  progressing: string;         // \"True\" | \"False\" | \"Unknown\"",
        "  degraded: string;            // \"True\" | \"False\" | \"Unknown\"",
        "  conditions: Condition[];     // Detailed operator conditions",
        "\x7d"],
      source := some "generated from getClusterOperators()",
      examples := if includeExamples then some () else none }
  | "Condition" => some
    { name := "Condition",
      definition := String.intercalate "\n" [
        "interface Condition \x7b",
        "  type: string;                // Condition type (e.g., \"Ready\", \"Available\", \"Degraded\")",
        "  status: string;              // \"True\" | \"False\" | \"Unknown\"",
        "  reason?: string;             // Machine-readable reason",
        "  message?: string;            // Human-readable message",
        "  lastTransitionTime?: string; // ISO 8601 timestamp of last status change",
        "\x7d"],
      source := some "Kubernetes standard type",
      examples := none }
  | "MustGatherConfig" => some
    { name := "MustGatherConfig",
      definition := String.intercalate "\n" [
        "interface MustGatherConfig \x7b",
        "  basePath: string;            // Path to must-gather directory",
        "  dataDir?: string;            // Optional override for data directory",
        "\x7d"],
      source := some "must-gather-lib.ts:12",
      examples := none }
  | "MustGatherAnalyzer" => some
    { name := "MustGatherAnalyzer",
      definition := String.intercalate "\n" [
        "class MustGatherAnalyzer \x7b",
        "  constructor(config: MustGatherConfig);",
        "",
        "  // Namespace operations",
        "  listNamespaces(): string[];",
        "",
        "  // Node operations",
        "  getNodes(): Node[];",
        "",
        "  // Pod operations",
        "  getPods(namespace?: string): Pod[];",
        "  getFailingPods(): Pod[];",
        "  getPodLogs(namespace: string, podName: string, container?: string): string | null;",
        "",
        "  // Event operations",
        "  getEvents(namespace?: string): Event[];",
        "  getWarningEvents(): Event[];",
        "",
        "  // Cluster health",
        "  getEtcdHealth(): EtcdHealth[];",
        "  getEtcdStatus(): any;",
        "  getClusterOperators(): ClusterOperator[];",
        "  getDegradedOperators(): ClusterOperator[];",
        "\x7d"],
      source := some "must-gather-lib.ts:63",
      examples := if includeExamples then some () else none }
  | _ => none

/-- `getNestedTypes(baseType)`: the reference relation between the
must-gather types (`nestedTypeMap[baseType] || []`). -/
def getNestedTypes (baseType : String) : List String :=
  match baseType with
  | "Node" => ["Condition"]
  | "Pod" => ["Container", "Condition"]
  | "Container" => []
  | "Event" => []
  | "EtcdHealth" => []
  | "ClusterOperator" => ["Condition"]
  | "Condition" => []
  | "MustGatherConfig" => []
  | "MustGatherAnalyzer" =>
    ["MustGatherConfig", "Node", "Pod", "Event", "EtcdHealth",
     "ClusterOperator"]
  | _ => []

/-- The concrete type map of typeGenerator.ts. -/
def mustGatherTypeMap : TypeMap :=
  { defs := getTypeDefinition, nested := getNestedTypes }

/-- The exported `getTypeDefinitions` of typeGenerator.ts: the generic
expander over the hard-wired must-gather type map. -/
def getTypeDefinitions (typeNames : List String) (depth : Int)
    (includeExamples : Bool) : List TypeDefinition :=
  getTypeDefinitionsOver mustGatherTypeMap typeNames depth
    includeExamples

/-- `getAllTypeNames()` of typeGenerator.ts. -/
def getAllTypeNames : List String :=
  ["MustGatherAnalyzer", "MustGatherConfig", "Node", "Pod", "Container",
   "Event", "EtcdHealth", "ClusterOperator", "Condition"]

/-! ## `mustGather.getTypeDefinition` tool handler (mcp-server.ts) -/

/-- The arguments of a `mustGather.getTypeDefinition` call, as the
handler receives them.  A missing (or non-array) `typeNames` is `none`;
a present but empty array is `some []`. -/
structure GetTypeDefinitionArgs where
  typeNames : Option (List String) := none
  depth : Option Int := none
  includeExamples : Option Bool := none
deriving DecidableEq

/-- The two `throw new Error(...)` sites of the handler, tagged by
origin: `invalidTypeNames` is thrown by the input-validation check
before the expander runs, `noTypesFound` after the expander returned an
empty list. -/
inductive HandlerError where
  | invalidTypeNames (message : String)
  | noTypesFound (message : String)
deriving DecidableEq

/-- The successful result object of the handler. -/
structure HandlerOk where
  types : List TypeDefinition
  availableTypes : List String
deriving DecidableEq

/-- The `mustGather.getTypeDefinition` case of the tool-call handler:
validate `typeNames`, apply the JavaScript `||` defaults to `depth`
(1) and `includeExamples` (false), run the expander, and fail if it
produced nothing. -/
def handleGetTypeDefinition (args : GetTypeDefinitionArgs) :
    Except HandlerError HandlerOk :=
  match args.typeNames with
  | none => .error (.invalidTypeNames
      ("typeNames array is required. Available types: " ++
        String.intercalate ", " getAllTypeNames))
  | some typeNames =>
    let types := getTypeDefinitions typeNames (jsOrInt args.depth 1)
      (jsOrBool args.includeExamples false)
    if types.length = 0 then
      .error (.noTypesFound
        ("No types found. Available types: " ++
          String.intercalate ", " getAllTypeNames))
    else
      .ok { types := types, availableTypes := getAllTypeNames }

/-- Projection used to state handler results compactly: the names of
the returned definitions of a successful call (empty on error). -/
def okTypeNames (r : Except HandlerError HandlerOk) : List String :=
  match r with
  | .ok res => res.types.map (·.name)
  | .error _ => []

/-! ## Statements taken from the specification text -/

/-- The keyword score exactly as the specification words it (claim C5):
the sum of five independent contributions — 100 for an exact
(lower-cased) name match, else 80 for a name substring match; 20 per
keyword-set entry that equals, contains, or is contained in the
keyword; 10 for a description substring match; 15 for a component-tag
substring match when the descriptor has a component; and 5 when some
word of the name, split at uppercase transitions and lower-cased,
contains or is contained in the keyword. -/
def keywordScoreSpec (method : AnalysisMethod) (keyword : String) :
    Int :=
  let kw := strToLower keyword
  (if strToLower method.name = kw then 100
   else if strIncludes (strToLower method.name) kw then 80 else 0) +
  (method.keywords.countP (fun k =>
    let kwLower := strToLower k
    kwLower = kw || strIncludes kwLower kw || strIncludes kw kwLower))
    * 20 +
  (if strIncludes (strToLower method.description) kw then 10 else 0) +
  (match method.component with
   | some c => if strIncludes (strToLower c) kw then 15 else 0
   | none => 0) +
  (if (jsSplitWs (strToLower (spaceBeforeUpper method.name))).any
      (fun w => strIncludes w kw || strIncludes kw w) then 5 else 0)

/-! ## Auxiliary material for the proofs -/

/-- Invariant of the expander accumulator state `(types, processed)`:
the names of the emitted definitions are pairwise distinct and all of
them are recorded in the processed-name set. -/
def expanderInv (st : List TypeDefinition × List String) : Prop :=
  (st.1.map TypeDefinition.name).Nodup ∧
  ∀ x ∈ st.1.map TypeDefinition.name, x ∈ st.2

/-- A two-type map with a reference cycle `A -> B -> A` (the shape of
the cycle-safety test of the specification). -/
def cycleTypeMap : TypeMap where
  defs := fun k _ =>
    if k = "A" then some { name := "A", definition := "interface A" }
    else if k = "B" then some { name := "B", definition := "interface B" }
    else none
  nested := fun k =>
    if k = "A" then ["B"] else if k = "B" then ["A"] else []

/-- A three-type map with the reference chain `A -> B -> C` (the shape
of the depth-bound test of the specification). -/
def chainTypeMap : TypeMap where
  defs := fun k _ =>
    if k = "A" then some { name := "A", definition := "interface A" }
    else if k = "B" then some { name := "B", definition := "interface B" }
    else if k = "C" then some { name := "C", definition := "interface C" }
    else none
  nested := fun k => if k = "A" then ["B"] else if k = "B" then ["C"] else []

/-! ## Sanity checks of the JavaScript-semantics helpers -/

example : jsSplitWs "" = [""] := by decide

example : jsSplitWs " a" = ["", "a"] := by decide

example : jsSplitWs "a " = ["a", ""] := by decide

example : jsSplitWs "a  b" = ["a", "b"] := by decide

example :
    jsSplitWs (strToLower (spaceBeforeUpper "getFailingPods")) =
      ["get", "failing", "pods"] := by decide

example : jsSliceTo (-5) [1, 2, 3, 4, 5, 6, 7, 8, 9, 10, 11] =
    [1, 2, 3, 4, 5, 6] := by decide

example : jsSliceTo 3 [1, 2] = [1, 2] := by decide

example : strIncludes "getEtcdHealth" "Etcd" = true := by decide

example : strIncludes "getEtcdHealth" "etcd" = false := by decide

/-! ## Claims -/

/-- **C6** — Against the full eleven-capability registry, the query
`{severity: "critical", scope: "cluster"}` returns exactly the two
descriptors named `getDegradedOperators` and `getEtcdHealth`, both with
total score 60 (30 for the severity match plus 30 for the scope match),
ordered with `getDegradedOperators` before `getEtcdHealth` by the
alphabetical tie-break. -/
theorem claim_C6_critical_cluster_query :
    (searchRanked ANALYSIS_METHODS
        { severity := some .critical, scope := some .cluster }).map
      (fun s => (s.method.name, s.score)) =
      [("getDegradedOperators", 60), ("getEtcdHealth", 60)] ∧
    (searchAnalysisMethods ANALYSIS_METHODS
        { severity := some .critical, scope := some .cluster }).map
      (·.name) = ["getDegradedOperators", "getEtcdHealth"] := by
  constructor <;> rfl

/-- **C1** — The claim that a negative `limit` behaves like the default
10 fails on the code: `params.limit || 10` only replaces `0` (falsy),
so `limit = -5` reaches `slice(0, Math.min(-5, 50))`, and a negative
slice end counts from the end of the array.  Against the full
eleven-entry registry an empty query with `limit = -5` returns the
first 6 ranked entries instead of 10.  The `0` and `1000` cases of the
claim do hold. -/
theorem claim_C1_negative_limit_bug :
    (searchAnalysisMethods ANALYSIS_METHODS { limit := some (-5) }).length
      = 6 ∧
    (searchAnalysisMethods ANALYSIS_METHODS { limit := some 10 }).length
      = 10 ∧
    searchAnalysisMethods ANALYSIS_METHODS { limit := some (-5) } ≠
      searchAnalysisMethods ANALYSIS_METHODS { limit := some 10 } ∧
    searchAnalysisMethods ANALYSIS_METHODS { limit := some 0 } =
      searchAnalysisMethods ANALYSIS_METHODS { limit := some 10 } ∧
    (searchAnalysisMethods ANALYSIS_METHODS { limit := some 1000 }).length
      = 11 := by
  refine ⟨rfl, rfl, by decide, rfl, rfl⟩

/-- **C2** — The handler computes the expansion depth as
`(args.depth as number) || 1` and never clamps it to `[1, 3]`: a
requested depth of `-1` is passed through to the expander, where
`0 < -1` fails immediately and no referenced type is expanded — unlike
the effective depth 1 the claim requires (`Pod` alone instead of `Pod`,
`Container`, `Condition`).  The default parts of the claim do hold:
an absent depth (and, via JavaScript falsiness, a requested depth 0)
becomes 1, and an absent `includeExamples` becomes `false`. -/
theorem claim_C2_depth_not_clamped :
    okTypeNames (handleGetTypeDefinition
        { typeNames := some ["Pod"], depth := some (-1) }) = ["Pod"] ∧
    okTypeNames (handleGetTypeDefinition
        { typeNames := some ["Pod"], depth := some 1 }) =
      ["Pod", "Container", "Condition"] ∧
    (∀ (tn : List String) (i : Option Bool),
      handleGetTypeDefinition
          { typeNames := some tn, depth := none, includeExamples := i } =
        handleGetTypeDefinition
          { typeNames := some tn, depth := some 1, includeExamples := i }) ∧
    (∀ (tn : List String) (i : Option Bool),
      handleGetTypeDefinition
          { typeNames := some tn, depth := some 0, includeExamples := i } =
        handleGetTypeDefinition
          { typeNames := some tn, depth := some 1, includeExamples := i }) ∧
    (∀ (tn : List String) (d : Option Int),
      handleGetTypeDefinition
          { typeNames := some tn, depth := d, includeExamples := none } =
        handleGetTypeDefinition
          { typeNames := some tn, depth := d,
            includeExamples := some false }) := by
  refine ⟨?_, ?_, fun tn i => rfl, fun tn i => rfl, fun tn d => rfl⟩
  · simp [okTypeNames, handleGetTypeDefinition, jsOrInt, jsOrBool,
      getTypeDefinitions, getTypeDefinitionsOver, addTypeDefinition,
      addTypeFromBase, addNestedTypes, mustGatherTypeMap,
      getTypeDefinition, getNestedTypes, baseTypeName]
  · simp [okTypeNames, handleGetTypeDefinition, jsOrInt, jsOrBool,
      getTypeDefinitions, getTypeDefinitionsOver, addTypeDefinition,
      addTypeFromBase, addNestedTypes, mustGatherTypeMap,
      getTypeDefinition, getNestedTypes, baseTypeName]

/-- **C3 counterexample** — An empty `typeNames` array is truthy in
JavaScript and `Array.isArray([])` holds, so the request passes the
input-validation check, the expander `getTypeDefinitions` is invoked
on the empty list, and the failure reported is the post-expansion
`No types found` error, not the `typeNames array is required`
input-validation error the claim requires. -/
theorem claim_C3_counterexample :
    handleGetTypeDefinition { typeNames := some ([] : List String) } =
      .error (.noTypesFound ("No types found. Available types: " ++
        String.intercalate ", " getAllTypeNames)) ∧
    (match handleGetTypeDefinition { typeNames := some ([] : List String)
        } with
     | .error (.invalidTypeNames _) => False
     | _ => True) := by
  exact ⟨rfl, trivial⟩

/-- **C3 (amended)** — A missing `typeNames` fails immediately with the
`typeNames array is required` input-validation error (the expander is
never reached: the handler returns before computing anything else); an
empty `typeNames` list is passed to the expander, which trivially
returns no definitions, and the handler then fails with the
`No types found` error.  In both cases the caller receives an error and
nothing is partially processed. -/
theorem claim_C3_empty_typeNames_errors :
    ∀ (d : Option Int) (i : Option Bool),
      handleGetTypeDefinition
          { typeNames := none, depth := d, includeExamples := i } =
        .error (.invalidTypeNames
          ("typeNames array is required. Available types: " ++
            String.intercalate ", " getAllTypeNames)) ∧
      handleGetTypeDefinition
          { typeNames := some [], depth := d, includeExamples := i } =
        .error (.noTypesFound ("No types found. Available types: " ++
          String.intercalate ", " getAllTypeNames)) := by
  exact fun d i => ⟨rfl, rfl⟩

/-- **C9** — Expansion resolves a dotted name through the portion
before the first dot only: for every type map, depth bound and
`includeExamples` flag, `expand(["Pod.status"])` and `expand(["Pod"])`
coincide, both for the generic expander and for the concrete
must-gather `getTypeDefinitions`. -/
theorem claim_C9_dotted_path :
    (∀ (tm : TypeMap) (maxDepth : Int) (includeExamples : Bool),
      getTypeDefinitionsOver tm ["Pod.status"] maxDepth includeExamples =
        getTypeDefinitionsOver tm ["Pod"] maxDepth includeExamples) ∧
    (∀ (maxDepth : Int) (includeExamples : Bool),
      getTypeDefinitions ["Pod.status"] maxDepth includeExamples =
        getTypeDefinitions ["Pod"] maxDepth includeExamples) := by
  have h : ∀ (tm : TypeMap) (d : Int) (i : Bool),
      getTypeDefinitionsOver tm ["Pod.status"] d i =
        getTypeDefinitionsOver tm ["Pod"] d i := by
    intro tm d i
    simp only [getTypeDefinitionsOver, List.foldl]
    rw [addTypeDefinition, addTypeDefinition]
    have e : baseTypeName "Pod.status" = baseTypeName "Pod" := rfl
    rw [e]
  exact ⟨h, fun d i => h mustGatherTypeMap d i⟩

/-- **C7** — In a type map with reference chain `A -> B -> C`,
expansion of `["A"]` with `maxDepth = 1` yields exactly `[A, B]` and
with `maxDepth = 2` exactly `[A, B, C]`: references are followed only
while the current traversal depth is strictly below `maxDepth`. -/
theorem claim_C7_depth_bound :
    ∀ (tm : TypeMap) (i : Bool) (dA dB dC : TypeDefinition),
      tm.defs "A" i = some dA → tm.defs "B" i = some dB →
      tm.defs "C" i = some dC →
      tm.nested "A" = ["B"] → tm.nested "B" = ["C"] →
      tm.nested "C" = [] →
      getTypeDefinitionsOver tm ["A"] 1 i = [dA, dB] ∧
      getTypeDefinitionsOver tm ["A"] 2 i = [dA, dB, dC] := by
  intro tm i dA dB dC h1 h2 h3 h4 h5 h6
  have bA : baseTypeName "A" = "A" := rfl
  have bB : baseTypeName "B" = "B" := rfl
  have bC : baseTypeName "C" = "C" := rfl
  constructor <;>
    simp [getTypeDefinitionsOver, addTypeDefinition, addTypeFromBase,
      addNestedTypes, bA, bB, bC, h1, h2, h3, h4, h5, h6]

/-- Witness for C7: the depth bound on the concrete `A -> B -> C`
chain map. -/
theorem claim_C7_depth_bound_witness :
    getTypeDefinitionsOver chainTypeMap ["A"] 1 false =
      [{ name := "A", definition := "interface A" },
       { name := "B", definition := "interface B" }] ∧
    getTypeDefinitionsOver chainTypeMap ["A"] 2 false =
      [{ name := "A", definition := "interface A" },
       { name := "B", definition := "interface B" },
       { name := "C", definition := "interface C" }] :=
  claim_C7_depth_bound chainTypeMap false _ _ _ rfl rfl rfl rfl rfl rfl

/-- Appending a fresh element to a duplicate-free list keeps it
duplicate-free. -/
theorem nodup_append_single {α : Type} {l : List α} {a : α}
    (h : l.Nodup) (ha : a ∉ l) : (l ++ [a]).Nodup := by
  simp [List.nodup_append, h, ha]

/-- The expander invariant is preserved by `addTypeFromBase` (for a
type map whose definitions carry the name they are filed under), and
the processed set only grows.  `n` bounds the remaining traversal
depth and drives the induction. -/
theorem addTypeFromBase_inv (tm : TypeMap)
    (hkf : ∀ (k : String) (i : Bool) (td : TypeDefinition),
      tm.defs k i = some td → td.name = k) :
    ∀ (n : Nat) (maxDepth : Int) (currentDepth : Nat),
      (maxDepth - currentDepth).toNat ≤ n →
      ∀ (baseType : String) (types : List TypeDefinition)
        (processed : List String) (i : Bool),
        expanderInv (types, processed) →
        expanderInv (addTypeFromBase tm baseType types processed maxDepth
          i currentDepth) ∧
        ∀ x ∈ processed,
          x ∈ (addTypeFromBase tm baseType types processed maxDepth i
            currentDepth).2 := by
  intro n
  induction n with
  | zero =>
    intro maxDepth currentDepth hn baseType types processed i hinv
    have hng : ¬ ((currentDepth : Int) < maxDepth) := by omega
    rw [addTypeFromBase]
    by_cases hb : baseType ∈ processed
    · simp only [if_pos hb]
      exact ⟨hinv, fun x hx => hx⟩
    · simp only [if_neg hb]
      cases hd : tm.defs baseType i with
      | none =>
        dsimp only
        exact ⟨⟨hinv.1, fun x hx => List.mem_append_left _ (hinv.2 x hx)⟩,
          fun x hx => List.mem_append_left _ hx⟩
      | some td =>
        dsimp only
        rw [if_neg hng]
        have hname : td.name = baseType := hkf _ _ _ hd
        have hnotin : td.name ∉ types.map TypeDefinition.name := by
          rw [hname]
          exact fun hmem => hb (hinv.2 _ hmem)
        refine ⟨⟨?_, ?_⟩, fun x hx => List.mem_append_left _ hx⟩
        · rw [List.map_append]
          exact nodup_append_single hinv.1 hnotin
        · intro x hx
          rw [List.map_append] at hx
          rcases List.mem_append.mp hx with hx | hx
          · exact List.mem_append_left _ (hinv.2 x hx)
          · have hx' : x = td.name := by simpa using hx
            exact List.mem_append_right _ (by simp [hx', hname])
  | succ n ih =>
    intro maxDepth currentDepth hn baseType types processed i hinv
    rw [addTypeFromBase]
    by_cases hb : baseType ∈ processed
    · simp only [if_pos hb]
      exact ⟨hinv, fun x hx => hx⟩
    · simp only [if_neg hb]
      cases hd : tm.defs baseType i with
      | none =>
        dsimp only
        exact ⟨⟨hinv.1, fun x hx => List.mem_append_left _ (hinv.2 x hx)⟩,
          fun x hx => List.mem_append_left _ hx⟩
      | some td =>
        dsimp only
        have hname : td.name = baseType := hkf _ _ _ hd
        have hnotin : td.name ∉ types.map TypeDefinition.name := by
          rw [hname]
          exact fun hmem => hb (hinv.2 _ hmem)
        have hmid : expanderInv (types ++ [td], processed ++ [baseType]) := by
          refine ⟨?_, ?_⟩
          · rw [List.map_append]
            exact nodup_append_single hinv.1 hnotin
          · intro x hx
            rw [List.map_append] at hx
            rcases List.mem_append.mp hx with hx | hx
            · exact List.mem_append_left _ (hinv.2 x hx)
            · have hx' : x = td.name := by simpa using hx
              exact List.mem_append_right _ (by simp [hx', hname])
        by_cases hg : (currentDepth : Int) < maxDepth
        · rw [if_pos hg]
          have hfuel : (maxDepth - ((currentDepth + 1 : Nat) : Int)).toNat
              ≤ n := by
            push_cast
            omega
          have hlist : ∀ (l : List String) (t2 : List TypeDefinition)
              (p2 : List String), expanderInv (t2, p2) →
              expanderInv (addNestedTypes tm l t2 p2 maxDepth i
                (currentDepth + 1)) ∧
              ∀ x ∈ p2, x ∈ (addNestedTypes tm l t2 p2 maxDepth i
                (currentDepth + 1)).2 := by
            intro l
            induction l with
            | nil =>
              intro t2 p2 hinv2
              rw [addNestedTypes]
              exact ⟨hinv2, fun x hx => hx⟩
            | cons y rest ihl =>
              intro t2 p2 hinv2
              rw [addNestedTypes]
              by_cases hy : y ∈ p2
              · simp only [if_pos hy]
                exact ihl t2 p2 hinv2
              · simp only [if_neg hy]
                rw [addTypeDefinition]
                have hstep := ih maxDepth (currentDepth + 1) hfuel
                  (baseTypeName y) t2 p2 i hinv2
                have hrest := ihl _ _ hstep.1
                exact ⟨hrest.1, fun x hx => hrest.2 _ (hstep.2 x hx)⟩
          have h1 := hlist (tm.nested baseType) (types ++ [td])
            (processed ++ [baseType]) hmid
          exact ⟨h1.1, fun x hx => h1.2 x (List.mem_append_left _ hx)⟩
        · rw [if_neg hg]
          exact ⟨hmid, fun x hx => List.mem_append_left _ hx⟩

/-- The expander invariant carried through the top-level loop of
`getTypeDefinitions` over the requested names. -/
theorem getTypeDefinitionsOver_inv (tm : TypeMap)
    (hkf : ∀ (k : String) (i : Bool) (td : TypeDefinition),
      tm.defs k i = some td → td.name = k) :
    ∀ (typeNames : List String) (depth : Int) (i : Bool)
      (st : List TypeDefinition × List String), expanderInv st →
      expanderInv (typeNames.foldl (fun acc typeName =>
        addTypeDefinition tm typeName acc.1 acc.2 depth i 0) st) := by
  intro typeNames depth i
  induction typeNames with
  | nil =>
    intro st h
    simpa using h
  | cons tn rest ih =>
    intro st h
    rw [List.foldl_cons]
    apply ih
    dsimp only
    rw [addTypeDefinition]
    exact (addTypeFromBase_inv tm hkf (depth - ((0 : Nat) : Int)).toNat
      depth 0 le_rfl (baseTypeName tn) st.1 st.2 i h).1

/-- **C4** — Cycle safety of the expander.  First conjunct: in any type
map where `A` references `B` and `B` references `A`,
`expand(["A"], maxDepth = 3)` returns exactly the descriptors of `A`
and `B`, each once.  Second conjunct: for any type map whose
definitions are filed under their own name, the shared processed-name
set guarantees the output never repeats a base type, for every request
list, depth, and example flag — regardless of cycles in the reference
relation. -/
theorem claim_C4_cycle_safety :
    (∀ (tm : TypeMap) (i : Bool) (dA dB : TypeDefinition),
      tm.defs "A" i = some dA → tm.defs "B" i = some dB →
      tm.nested "A" = ["B"] → tm.nested "B" = ["A"] →
      getTypeDefinitionsOver tm ["A"] 3 i = [dA, dB]) ∧
    (∀ (tm : TypeMap),
      (∀ (k : String) (i : Bool) (td : TypeDefinition),
        tm.defs k i = some td → td.name = k) →
      ∀ (typeNames : List String) (depth : Int) (i : Bool),
        ((getTypeDefinitionsOver tm typeNames depth i).map
          TypeDefinition.name).Nodup) := by
  constructor
  · intro tm i dA dB h1 h2 h3 h4
    have bA : baseTypeName "A" = "A" := rfl
    have bB : baseTypeName "B" = "B" := rfl
    simp [getTypeDefinitionsOver, addTypeDefinition, addTypeFromBase,
      addNestedTypes, bA, bB, h1, h2, h3, h4]
  · intro tm hkf typeNames depth i
    have h := getTypeDefinitionsOver_inv tm hkf typeNames depth i
      ([], []) ⟨by simp, by simp⟩
    unfold getTypeDefinitionsOver
    exact h.1

/-- Witness for C4: the concrete `A <-> B` cycle map, and
duplicate-freedom of a concrete expansion that reaches `Condition`
through three different references. -/
theorem claim_C4_cycle_safety_witness :
    getTypeDefinitionsOver cycleTypeMap ["A"] 3 false =
      [{ name := "A", definition := "interface A" },
       { name := "B", definition := "interface B" }] ∧
    ((getTypeDefinitionsOver mustGatherTypeMap
      ["MustGatherAnalyzer", "Pod", "MustGatherAnalyzer"] 3 true).map
      TypeDefinition.name).Nodup :=
  ⟨claim_C4_cycle_safety.1 cycleTypeMap false _ _ rfl rfl rfl rfl,
   claim_C4_cycle_safety.2 mustGatherTypeMap
    (by
      intro k i td h
      simp only [mustGatherTypeMap, getTypeDefinition] at h
      split at h <;>
        first
          | exact Option.noConfusion h
          | (injection h with h2
             subst h2
             rfl))
    ["MustGatherAnalyzer", "Pod", "MustGatherAnalyzer"] 3 true⟩

/-- Membership in a stable insertion is membership in the inserted
element or the list. -/
theorem mem_insertRanked {α : Type} {le : α → α → Bool} {x a : α}
    {l : List α} : x ∈ insertRanked le a l ↔ x = a ∨ x ∈ l := by
  induction l with
  | nil => simp [insertRanked]
  | cons b bs ih =>
    simp only [insertRanked]
    split <;> (simp [ih]; try tauto)

/-- Membership through the sort loop. -/
theorem mem_jsStableSortGo {α : Type} {le : α → α → Bool} {x : α} :
    ∀ (l acc : List α),
      x ∈ jsStableSortGo le acc l ↔ x ∈ acc ∨ x ∈ l := by
  intro l
  induction l with
  | nil =>
    intro acc
    simp [jsStableSortGo]
  | cons a as ih =>
    intro acc
    simp [jsStableSortGo, ih, mem_insertRanked]
    tauto

/-- Sorting does not change membership. -/
theorem mem_jsStableSort {α : Type} {le : α → α → Bool} {x : α}
    {l : List α} : x ∈ jsStableSort le l ↔ x ∈ l := by
  simp [jsStableSort, mem_jsStableSortGo]

/-- When a keyword is present (truthy) and a descriptor's keyword score
is zero, the keyword block clears the `include` flag whatever the state
before it was. -/
theorem keywordStep_zero {params : SearchParams} {m : AnalysisMethod}
    {kw : String} (hk : params.keyword = some kw) (hne : kw ≠ "")
    (hz : calculateKeywordScore m kw = 0) (st : Bool × Int) :
    (keywordStep params m st).1 = false := by
  simp [keywordStep, hk, strTruthy, hne, hz]

/-- **C5** — The keyword score computed by the code coincides, for
every descriptor and non-empty keyword, with the specification's sum of
the five contributions (`keywordScoreSpec`); and a descriptor whose
keyword score is exactly zero never appears in the search results when
a (non-empty) keyword is present in the query. -/
theorem claim_C5_keyword_score :
    (∀ (m : AnalysisMethod) (kw : String), kw ≠ "" →
      calculateKeywordScore m kw = keywordScoreSpec m kw) ∧
    (∀ (registry : List AnalysisMethod) (params : SearchParams)
       (m : AnalysisMethod) (kw : String),
      params.keyword = some kw → kw ≠ "" →
      calculateKeywordScore m kw = 0 →
      m ∉ searchAnalysisMethods registry params) := by
  constructor
  · intro m kw _
    simp only [calculateKeywordScore, keywordScoreSpec,
      List.countP_eq_length_filter]
    cases hm : m.component <;> dsimp only <;> split_ifs <;> omega
  · intro registry params m kw hk hne hz hmem
    have hstep : (searchFilterStep params m).1 = false :=
      keywordStep_zero hk hne hz _
    simp only [searchAnalysisMethods, jsSliceTo, List.mem_map] at hmem
    obtain ⟨sm, hsm, hmeq⟩ := hmem
    have hsm1 : sm ∈ searchMatches registry params := by
      have h1 := List.mem_of_mem_take hsm
      exact mem_jsStableSort.mp (by simpa [searchRanked] using h1)
    simp only [searchMatches, List.mem_filterMap] at hsm1
    obtain ⟨a, ha, hfa⟩ := hsm1
    by_cases h1 : (searchFilterStep params a).1 = true
    · rw [if_pos h1] at hfa
      injection hfa with hfa
      have ham : a = m := by
        rw [← hfa] at hmeq
        simpa using hmeq
      rw [ham, hstep] at h1
      exact Bool.noConfusion h1
    · rw [if_neg h1] at hfa
      exact Option.noConfusion hfa

/-- Witness for C5: the `listNamespaces` descriptor scores identically
under code and specification for keyword `etcd`, and — scoring zero —
is excluded from the `{keyword: "etcd"}` search. -/
theorem claim_C5_keyword_score_witness :
    (calculateKeywordScore (ANALYSIS_METHODS.headD
        ⟨"", "", none, .info, .cluster, .health, []⟩) "etcd" =
      keywordScoreSpec (ANALYSIS_METHODS.headD
        ⟨"", "", none, .info, .cluster, .health, []⟩) "etcd") ∧
    (ANALYSIS_METHODS.headD ⟨"", "", none, .info, .cluster, .health, []⟩)
      ∉ searchAnalysisMethods ANALYSIS_METHODS
        { keyword := some "etcd" } :=
  ⟨claim_C5_keyword_score.1 _ "etcd" (by decide),
   claim_C5_keyword_score.2 ANALYSIS_METHODS _ _ "etcd" rfl (by decide)
     (by rfl)⟩

/-- **C8** — A query with every filter field absent filters nothing:
the surviving matches are exactly the registry entries, all with score
zero, and the search result is that list ranked and cut only by the
limit rule.  (The search function is total by construction: it returns
a list for every query, there is no failing branch to model.) -/
theorem claim_C8_empty_query_matches_all :
    ∀ (registry : List AnalysisMethod) (params : SearchParams),
      params.component = none → params.severity = none →
      params.scope = none → params.category = none →
      params.keyword = none →
      searchMatches registry params =
        registry.map (fun m => ⟨m, 0⟩) ∧
      searchAnalysisMethods registry params =
        (jsSliceTo (min (jsOrInt params.limit 10) 50)
          (jsStableSort searchLe
            (registry.map (fun m => ⟨m, 0⟩)))).map (·.method) := by
  intro registry params h1 h2 h3 h4 h5
  have hstep : ∀ m, searchFilterStep params m = (true, 0) := by
    intro m
    simp [searchFilterStep, componentStep, severityStep, scopeStep,
      categoryStep, keywordStep, h1, h2, h3, h4, h5, strTruthy]
  have hm : searchMatches registry params =
      registry.map (fun m => ⟨m, 0⟩) := by
    simp only [searchMatches]
    rw [show (fun m => (let st := searchFilterStep params m;
        if st.1 then some (⟨m, st.2⟩ : ScoredMethod) else none)) =
        (fun m => some (⟨m, 0⟩ : ScoredMethod)) from
      funext fun m => by simp [hstep]]
    exact congrFun (List.filterMap_eq_map
      (fun m => (⟨m, 0⟩ : ScoredMethod))) registry
  exact ⟨hm, by simp only [searchAnalysisMethods, searchRanked, hm]⟩

/-- Witness for C8: an empty query (limit 3) over the full registry. -/
theorem claim_C8_empty_query_matches_all_witness :
    searchMatches ANALYSIS_METHODS { limit := some 3 } =
      ANALYSIS_METHODS.map (fun m => ⟨m, 0⟩) ∧
    searchAnalysisMethods ANALYSIS_METHODS { limit := some 3 } =
      (jsSliceTo (min (jsOrInt (some 3) 10) 50)
        (jsStableSort searchLe
          (ANALYSIS_METHODS.map (fun m => ⟨m, 0⟩)))).map (·.method) :=
  claim_C8_empty_query_matches_all ANALYSIS_METHODS { limit := some 3 }
    rfl rfl rfl rfl rfl

/-- **C10** — A `keyword` or `component` present but equal to the empty
string is falsy in JavaScript, so the search behaves exactly as if the
field were absent: nothing is filtered out and no score is added by
that block. -/
theorem claim_C10_empty_string_like_absent :
    ∀ (registry : List AnalysisMethod) (params : SearchParams),
      (params.keyword = some "" →
        searchAnalysisMethods registry params =
          searchAnalysisMethods registry
            { params with keyword := none }) ∧
      (params.component = some "" →
        searchAnalysisMethods registry params =
          searchAnalysisMethods registry
            { params with component := none }) := by
  intro registry params
  constructor
  · intro hk
    have hstep : ∀ m, searchFilterStep params m =
        searchFilterStep { params with keyword := none } m := by
      intro m
      simp [searchFilterStep, componentStep, severityStep, scopeStep,
        categoryStep, keywordStep, hk, strTruthy]
    have hm : searchMatches registry params =
        searchMatches registry { params with keyword := none } := by
      simp only [searchMatches]
      congr 1
      funext m
      rw [hstep]
    simp only [searchAnalysisMethods, searchRanked, hm]
  · intro hc
    have hstep : ∀ m, searchFilterStep params m =
        searchFilterStep { params with component := none } m := by
      intro m
      simp [searchFilterStep, componentStep, severityStep, scopeStep,
        categoryStep, keywordStep, hc, strTruthy]
    have hm : searchMatches registry params =
        searchMatches registry { params with component := none } := by
      simp only [searchMatches]
      congr 1
      funext m
      rw [hstep]
    simp only [searchAnalysisMethods, searchRanked, hm]

/-- Witness for C10: over the full registry, an empty-string keyword
(resp. component) query gives the same output as the empty query. -/
theorem claim_C10_empty_string_like_absent_witness :
    searchAnalysisMethods ANALYSIS_METHODS { keyword := some "" } =
      searchAnalysisMethods ANALYSIS_METHODS {} ∧
    searchAnalysisMethods ANALYSIS_METHODS { component := some "" } =
      searchAnalysisMethods ANALYSIS_METHODS {} :=
  ⟨(claim_C10_empty_string_like_absent ANALYSIS_METHODS
      { keyword := some "" }).1 rfl,
   (claim_C10_empty_string_like_absent ANALYSIS_METHODS
      { component := some "" }).2 rfl⟩

end MustGather
